import Mathlib

/-!
# Verification of the vmx2xml VMX-to-libvirt-XML mapper

A shallow embedding of the core mapping logic of `vmx2xml.py` (the VMX
key-value parser, the primitive decoders, the translation tables, the device
enumerators, the file-reference resolver, the CPU-topology resolver and the
relevant parts of the argument assembler), together with theorems settling
the specification claims about these components.

Python semantics are modelled explicitly: `str.strip` / `str.strip(chars)`
remove characters from both ends, `str.lower` maps `A`-`Z` to `a`-`z`,
dictionaries are association lists whose plain subscript raises `KeyError`
(modelled with `Except`) while `defaultdict(str)` lookups default to `""`
(modelled as total functions into `String`), and `sys.exit(n)` is modelled
as `Except.error n`.
-/

namespace VmxSpec

/-! ## Python string primitives -/

/-- Characters `str.strip()` removes: the Python whitespace set. -/
def isPySpace (c : Char) : Bool :=
  c == ' ' || c == '\t' || c == '\n' || c == '\x0d' || c == '\x0b' || c == '\x0c'

/-- Python `str.strip(chars)` on a character list: remove every leading and
trailing character satisfying `p`. -/
def pyStripChars (p : Char → Bool) (l : List Char) : List Char :=
  ((l.dropWhile p).reverse.dropWhile p).reverse

/-- Python `str.strip()`. -/
def pyStrip (s : String) : String :=
  String.mk (pyStripChars isPySpace s.data)

/-- Python `value.strip('"')` (vmx2xml.py line 182): removes all leading and
trailing double-quote characters, not just one layer. -/
def pyStripQuotes (s : String) : String :=
  String.mk (pyStripChars (fun c => c == '"') s.data)

/-- Python `str.lower` on one character (ASCII range, which is all the VMX
keys use). -/
def pyLowerChar (c : Char) : Char :=
  if 65 ≤ c.toNat ∧ c.toNat ≤ 90 then Char.ofNat (c.toNat + 32) else c

/-- Python `str.lower`. -/
def pyLower (s : String) : String :=
  String.mk (s.data.map pyLowerChar)

/-! ## The VMX key-value store (`parse_vmx`, vmx2xml.py lines 162-183)

The Python code fills a `defaultdict(str)`: we model the store as a total
function `String → String` whose default value is `""`. -/

abbrev VmxDict := String → String

/-- The empty store: every key defaults to `""`. -/
def emptyDict : VmxDict := fun _ => ""

/-- `d[name] = value` on a `defaultdict(str)`. -/
def dictInsert (d : VmxDict) (k v : String) : VmxDict :=
  fun q => if q = k then v else d q

/-- One iteration of the `parse_vmx` loop (vmx2xml.py lines 164-183): strip
the line; skip empty and `#`/`!` comment lines; find the first `=` (skip the
line when there is none); the key is the part before it, stripped and
lower-cased; the value is the part after it, stripped of whitespace and then
of enclosing double quotes. -/
def parse_vmx_line (d : VmxDict) (rawline : String) : VmxDict :=
  let line := pyStrip rawline
  match line.data with
  | [] => d
  | c :: _ =>
    if c == '#' || c == '!' then d
    else if line.data.contains '=' then
      let name := pyLower (pyStrip (String.mk (line.data.takeWhile (fun a => a ≠ '='))))
      let value := pyStripQuotes (pyStrip (String.mk ((line.data.dropWhile (fun a => a ≠ '=')).tail)))
      dictInsert d name value
    else d

/-- `parse_vmx` (vmx2xml.py lines 162-183), with the file given as its list
of lines. -/
def parse_vmx (lines : List String) (d : VmxDict) : VmxDict :=
  lines.foldl parse_vmx_line d

/-- `parse_boolean` (vmx2xml.py lines 55-57). -/
def parse_boolean (s : String) : Bool :=
  pyLower s == "true"

/-! ## Translation tables (`translate` and its callers) -/

/-- First-match lookup in an association list; the Python dictionaries the
code builds have distinct keys, so this is exactly dict lookup. -/
def dictLookup : List (String × String) → String → Option String
  | [], _ => none
  | (k, v) :: rest, s => if s = k then some v else dictLookup rest s

/-- `translate` (vmx2xml.py lines 49-52): `if (s not in dictionary): return
""` followed by `return dictionary[s]`. A key that is not in the table yields
`""` — the `defaultdict` default is never consulted because of the explicit
membership test. -/
def translate (dictionary : List (String × String)) (s : String) : String :=
  match dictLookup dictionary s with
  | none => ""
  | some v => v

/-- The SCSI controller model table (vmx2xml.py lines 186-194). -/
def translate_scsi_controller_model (model : String) : String :=
  translate [("", "buslogic"),
             ("auto", "auto"),
             ("lsilogic", "lsilogic"),
             ("lsisas1068", "lsisas1068"),
             ("pvscsi", "virtio-scsi")] model

/-! ## C2 — SCSI controller model translation -/

/-- C2 counterexample: the claim says every input outside the four known
model names returns the documented default `"buslogic"`; the code returns
`""` for the unrecognized model `"megaraid"`. -/
theorem c2_unknown_model_counterexample :
    translate_scsi_controller_model "megaraid" = "" ∧
    translate_scsi_controller_model "megaraid" ≠ "buslogic" := by
  constructor
  · rfl
  · decide

/-- C2 (amended): the SCSI controller model translation maps `"auto"`,
`"lsilogic"`, `"lsisas1068"` to themselves, `"pvscsi"` to `"virtio-scsi"`,
the empty string to `"buslogic"`, and every other string to `""` (no model
attribute is emitted), never failing. -/
theorem c2_scsi_model_total (s : String) :
    translate_scsi_controller_model s =
      if s = "" then "buslogic"
      else if s = "auto" then "auto"
      else if s = "lsilogic" then "lsilogic"
      else if s = "lsisas1068" then "lsisas1068"
      else if s = "pvscsi" then "virtio-scsi"
      else "" := by
  simp only [translate_scsi_controller_model, translate, dictLookup]
  split_ifs <;> rfl

/-! ## C1 — behaviour when the output XML already exists

`get_options` (vmx2xml.py lines 923-931): if the output exists and
`--overwrite` was not given, the program logs "exists, skipping" and calls
`sys.exit(0)`; only then is the `.xml` suffix checked (exit 1 on failure).
We model exits as `Except.error` carrying the exit code; `Except.ok` means
`get_options` falls through to its `return` (and output is written only much
later, by `virt_install`). -/

def check_output_xml (xml_exists overwrite : Bool) (xml_name : String) : Except Nat Unit :=
  if xml_exists && !overwrite then Except.error 0
  else if !(xml_name.endsWith ".xml") then Except.error 1
  else Except.ok ()

/-- C1 counterexample: with an existing output file and no overwrite flag the
program exits with status 0 (a skip), not with the usage-error status 1 the
claim states. -/
theorem c1_skip_counterexample :
    check_output_xml true false "out.xml" = Except.error 0 ∧
    check_output_xml true false "out.xml" ≠ Except.error 1 := by
  constructor
  · rfl
  · intro h
    simp [check_output_xml] at h

/-- C1 (amended): for every invocation where the output XML path names a file
that already exists and the overwrite flag is not given, the program exits
with status 0 — a logged skip, not a fatal usage error — and no output is
written (the exit happens inside option processing, before `virt_install`
runs). -/
theorem c1_existing_output_skips (xml_name : String) :
    check_output_xml true false xml_name = Except.error 0 := by
  rfl

/-! ## C4 — case handling of key lookup -/

/-- `Char.ofNat` applied to a number in the valid low range keeps its value. -/
theorem toNat_ofNat_valid {n : Nat} (h : n < 55296) : (Char.ofNat n).toNat = n := by
  have hv : n.isValidChar := Or.inl h
  unfold Char.ofNat
  rw [dif_pos hv]
  rfl

theorem pyLowerChar_idem (c : Char) : pyLowerChar (pyLowerChar c) = pyLowerChar c := by
  unfold pyLowerChar
  by_cases h : 65 ≤ c.toNat ∧ c.toNat ≤ 90
  · rw [if_pos h]
    have ht : (Char.ofNat (c.toNat + 32)).toNat = c.toNat + 32 :=
      toNat_ofNat_valid (by omega)
    rw [ht, if_neg (by omega)]
  · rw [if_neg h, if_neg h]

theorem pyLower_idem (s : String) : pyLower (pyLower s) = pyLower s := by
  unfold pyLower
  refine congrArg String.mk ?_
  show (s.data.map pyLowerChar).map pyLowerChar = s.data.map pyLowerChar
  rw [List.map_map]
  exact List.map_congr_left (fun c _ => pyLowerChar_idem c)

/-- One parsing step keeps the store empty at every key that is not already
lower-case (the stored key is always `pyLower` of something). -/
theorem parse_vmx_line_lower (d : VmxDict) (line : String)
    (h : ∀ q, q ≠ pyLower q → d q = "") :
    ∀ q, q ≠ pyLower q → parse_vmx_line d line q = "" := by
  intro q hq
  unfold parse_vmx_line
  cases hl : (pyStrip line).data with
  | nil => exact h q hq
  | cons c rest =>
    by_cases hc : (c == '#' || c == '!') = true
    · simp only [hc, if_true]
      exact h q hq
    · simp only [hc, if_false, Bool.false_eq_true]
      by_cases he : (c :: rest).contains '=' = true
      · simp only [he, if_true]
        unfold dictInsert
        rw [if_neg, h q hq]
        intro heq
        apply hq
        rw [heq, pyLower_idem]
      · simp only [he, if_false, Bool.false_eq_true]
        exact h q hq

theorem parse_vmx_lower (lines : List String) (d : VmxDict)
    (h : ∀ q, q ≠ pyLower q → d q = "") :
    ∀ q, q ≠ pyLower q → parse_vmx lines d q = "" := by
  induction lines generalizing d with
  | nil => exact h
  | cons l ls ih => exact ih (parse_vmx_line d l) (parse_vmx_line_lower d l h)

/-- C4 counterexample: keys are lower-cased when stored but lookup is an
exact-match dictionary access, so the claim's two example keys do not resolve
identically: after parsing `SCSI0.present = "TRUE"`, the lower-case lookup
returns `"TRUE"` while the mixed-case lookup returns the default `""`. -/
theorem c4_case_counterexample :
    parse_vmx ["SCSI0.present = \"TRUE\""] emptyDict "scsi0.present" = "TRUE" ∧
    parse_vmx ["SCSI0.present = \"TRUE\""] emptyDict "SCSI0.present" = "" ∧
    parse_vmx ["SCSI0.present = \"TRUE\""] emptyDict "SCSI0.present" ≠
      parse_vmx ["SCSI0.present = \"TRUE\""] emptyDict "scsi0.present" := by
  refine ⟨by decide, by decide, by decide⟩

/-- C4 (amended): parsing lower-cases every key before storing it, and the
store's lookup is exact match. A lookup with any key that is not already
lower-case therefore always yields the default `""`, whatever the VMX text:
only lower-case lookup keys resolve case-insensitively with respect to the
file (the code's own lookup `d["smbios.reflectHost"]` on line 974 can never
match). Parsing the same text twice is deterministic by construction. -/
theorem c4_noncanonical_lookup_misses (lines : List String) (k : String)
    (h : k ≠ pyLower k) :
    parse_vmx lines emptyDict k = "" :=
  parse_vmx_lower lines emptyDict (fun _ _ => rfl) k h

theorem c4_noncanonical_lookup_witness :
    parse_vmx ["SMBIOS.reflectHost = \"TRUE\""] emptyDict "smbios.reflectHost" = "" :=
  c4_noncanonical_lookup_misses ["SMBIOS.reflectHost = \"TRUE\""] "smbios.reflectHost"
    (by decide)

/-! ## C5 — quote stripping on values -/

theorem pyStripChars_head (p : Char → Bool) (l : List Char) (c : Char)
    (h : (pyStripChars p l).head? = some c) : p c = false := by
  unfold pyStripChars at h
  rw [List.head?_reverse] at h
  obtain ⟨t, ht⟩ := List.dropWhile_suffix (l := (l.dropWhile p).reverse) p
  have h2 : ((l.dropWhile p).reverse).getLast? = some c := by
    rw [← ht, List.getLast?_append, h]
    rfl
  rw [List.getLast?_reverse] at h2
  have h3 := List.head?_dropWhile_not p l
  rw [h2] at h3
  exact h3

theorem pyStripChars_getLast (p : Char → Bool) (l : List Char) (c : Char)
    (h : (pyStripChars p l).getLast? = some c) : p c = false := by
  unfold pyStripChars at h
  rw [List.getLast?_reverse] at h
  have h3 := List.head?_dropWhile_not p ((l.dropWhile p).reverse)
  rw [h] at h3
  exact h3

/-- A stored VMX value never starts nor ends with a double quote. -/
def noBoundaryQuote (v : String) : Bool :=
  v.data.head?.all (fun c => !(c == '"')) && v.data.getLast?.all (fun c => !(c == '"'))

theorem pyStripQuotes_noBoundary (s : String) :
    noBoundaryQuote (pyStripQuotes s) = true := by
  unfold noBoundaryQuote pyStripQuotes
  rw [Bool.and_eq_true]
  constructor
  · cases hh : (pyStripChars (fun c => c == '"') s.data).head? with
    | none => simp [hh]
    | some c =>
      have hc := pyStripChars_head _ _ _ hh
      simp [hh, hc]
  · cases hh : (pyStripChars (fun c => c == '"') s.data).getLast? with
    | none => simp [hh]
    | some c =>
      have hc := pyStripChars_getLast _ _ _ hh
      simp [hh, hc]

theorem parse_vmx_line_noBoundary (d : VmxDict) (line : String)
    (h : ∀ q, noBoundaryQuote (d q) = true) :
    ∀ q, noBoundaryQuote (parse_vmx_line d line q) = true := by
  intro q
  unfold parse_vmx_line
  cases hl : (pyStrip line).data with
  | nil => exact h q
  | cons c rest =>
    by_cases hc : (c == '#' || c == '!') = true
    · simp only [hc, if_true]
      exact h q
    · simp only [hc, if_false, Bool.false_eq_true]
      by_cases he : (c :: rest).contains '=' = true
      · simp only [he, if_true]
        unfold dictInsert
        split
        · exact pyStripQuotes_noBoundary _
        · exact h q
      · simp only [he, if_false, Bool.false_eq_true]
        exact h q

/-- C5 counterexample: the claim says exactly one layer of enclosing double
quotes is stripped, so a doubly quoted value should keep one layer; the code
strips all of them: the value written `""x""` is stored as `x`. -/
theorem c5_double_quote_counterexample :
    parse_vmx ["opt = \"\"x\"\""] emptyDict "opt" = "x" ∧
    parse_vmx ["opt = \"\"x\"\""] emptyDict "opt" ≠ "\"x\"" := by
  refine ⟨by decide, by decide⟩

/-- C5 (amended): for every parsed VMX line with an `=`, the stored value is
the right-hand side with surrounding whitespace trimmed and ALL leading and
trailing double-quote characters removed (Python `str.strip('"')`), so no
stored value ever starts or ends with a double quote; quote characters
interior to the value are preserved. -/
theorem c5_values_fully_unquoted (lines : List String) (k : String) :
    noBoundaryQuote (parse_vmx lines emptyDict k) = true := by
  suffices hgen : ∀ (ls : List String) (d : VmxDict),
      (∀ q, noBoundaryQuote (d q) = true) → ∀ q, noBoundaryQuote (parse_vmx ls d q) = true by
    exact hgen lines emptyDict (fun _ => rfl) k
  intro ls
  induction ls with
  | nil => intro d h q; exact h q
  | cons l rest ih =>
    intro d h q
    exact ih (parse_vmx_line d l) (parse_vmx_line_noBoundary d l h) q

/-! ## C6 — CPU topology resolution (`main`, vmx2xml.py lines 978-988) -/

/-- The CPU topology resolution inlined in `main` (vmx2xml.py lines 978-988):
each raw input defaults to 1 when zero or absent (`max` with 1, which also
covers negative input), `sockets = vcpus // corespersocket` (Python `//` is
`Int.fdiv`) floored to at least 1, `cores = corespersocket`, `threads = 1`.
The code then asserts `vcpus == sockets * cores`. -/
def resolve_topology (raw_vcpus raw_corespersocket : Int) : Int × Int × Int × Int :=
  let vcpus := max raw_vcpus 1
  let corespersocket := max raw_corespersocket 1
  let sockets := max (vcpus.fdiv corespersocket) 1
  (vcpus, sockets, corespersocket, 1)

/-- C6: whenever the defaulted vcpu count is an exact multiple of the
defaulted cores-per-socket (Python `%` is `Int.fmod`), the resolver returns
`threads = 1`, `cores = corespersocket`, and sockets with
`sockets * cores = vcpus`. -/
theorem c6_topology_invariant (raw_vcpus raw_corespersocket : Int)
    (h : (max raw_vcpus 1).fmod (max raw_corespersocket 1) = 0) :
    (resolve_topology raw_vcpus raw_corespersocket).2.2.2 = 1 ∧
    (resolve_topology raw_vcpus raw_corespersocket).2.2.1 = max raw_corespersocket 1 ∧
    (resolve_topology raw_vcpus raw_corespersocket).2.1 *
        (resolve_topology raw_vcpus raw_corespersocket).2.2.1
      = (resolve_topology raw_vcpus raw_corespersocket).1 := by
  have hv1 : 1 ≤ max raw_vcpus 1 := le_max_right _ _
  have hc1 : 1 ≤ max raw_corespersocket 1 := le_max_right _ _
  have hc0 : (0 : Int) ≤ max raw_corespersocket 1 := by omega
  have hmod : max raw_vcpus 1 % max raw_corespersocket 1 = 0 := by
    rw [← Int.fmod_eq_emod _ hc0]
    exact h
  have hdvd : max raw_corespersocket 1 ∣ max raw_vcpus 1 :=
    Int.dvd_of_emod_eq_zero hmod
  have hcv : max raw_corespersocket 1 ≤ max raw_vcpus 1 :=
    Int.le_of_dvd (by omega) hdvd
  have hfd : (max raw_vcpus 1).fdiv (max raw_corespersocket 1)
      = max raw_vcpus 1 / max raw_corespersocket 1 := Int.fdiv_eq_ediv _ hc0
  have hs1 : 1 ≤ max raw_vcpus 1 / max raw_corespersocket 1 := by
    rw [Int.le_ediv_iff_mul_le (by omega)]
    omega
  refine ⟨rfl, rfl, ?_⟩
  show max ((max raw_vcpus 1).fdiv (max raw_corespersocket 1)) 1 * max raw_corespersocket 1
      = max raw_vcpus 1
  rw [hfd, max_eq_left hs1]
  exact Int.ediv_mul_cancel hdvd

/-- C6 witness: `numvcpus = 6` with `cpuid.corespersocket = 2` yields the
topology (vcpus 6, sockets 3, cores 2, threads 1). -/
theorem c6_topology_witness :
    resolve_topology 6 2 = (6, 3, 2, 1) ∧
    ((resolve_topology 6 2).2.2.2 = 1 ∧
     (resolve_topology 6 2).2.2.1 = max 2 1 ∧
     (resolve_topology 6 2).2.1 * (resolve_topology 6 2).2.2.1 = (resolve_topology 6 2).1) :=
  ⟨by decide, c6_topology_invariant 6 2 (by decide)⟩

/-! ## C7 — GenID formatting (`parse_genid`, vmx2xml.py lines 114-127) -/

/-- One lowercase hex digit as Python `format(u, 'x')` writes it
(`'0'` is 48, `'a'` is 97). -/
def hexChar (n : Nat) : Char :=
  if n < 10 then Char.ofNat (48 + n) else Char.ofNat (87 + n)

/-- The 16 digits of `f"{u:016x}"` for `u < 2^64`: zero-padded lowercase hex,
most significant digit first. -/
def toHex16 (n : Nat) : List Char :=
  (List.range 16).map (fun i => hexChar (n / 16 ^ (15 - i) % 16))

/-- Lowercase hexadecimal digit test. -/
def isHexDigitChar (c : Char) : Bool :=
  (48 ≤ c.toNat && c.toNat ≤ 57) || (97 ≤ c.toNat && c.toNat ≤ 102)

/-- `parse_genid` (vmx2xml.py lines 114-127) as a character list. For a
signed 64-bit input, `struct.pack('>q')` followed by `struct.unpack('>Q')`
reinterprets it as unsigned, which equals reduction modulo `2^64` (`%` on
`Int` is Euclidean mod, non-negative here). The two 16-digit hex renderings
are concatenated genidx-high genid-low, and Python slicing inserts the four
dashes: `s[0:8] + "-" + s[8:12] + "-" + s[12:16] + "-" + s[16:20] + "-" +
s[20:32]`. -/
def parse_genid_chars (genid genidx : Int) : List Char :=
  if genid = 0 ∧ genidx = 0 then []
  else
    let ugenid : Nat := (genid % (2 ^ 64 : Int)).toNat
    let ugenidx : Nat := (genidx % (2 ^ 64 : Int)).toNat
    let s : List Char := toHex16 ugenidx ++ toHex16 ugenid
    (s.take 8) ++ ['-'] ++ ((s.drop 8).take 4) ++ ['-'] ++ ((s.drop 12).take 4)
      ++ ['-'] ++ ((s.drop 16).take 4) ++ ['-'] ++ ((s.drop 20).take 12)

/-- `parse_genid` (vmx2xml.py lines 114-127). -/
def parse_genid (genid genidx : Int) : String :=
  String.mk (parse_genid_chars genid genidx)

theorem hexChar_hex {n : Nat} (h : n < 16) : isHexDigitChar (hexChar n) = true := by
  interval_cases n <;> decide

theorem toHex16_hex (n : Nat) : ∀ c ∈ toHex16 n, isHexDigitChar c = true := by
  intro c hc
  unfold toHex16 at hc
  obtain ⟨i, _, rfl⟩ := List.mem_map.1 hc
  exact hexChar_hex (Nat.mod_lt _ (by omega))

theorem exists_list4 (l : List Char) (h : l.length = 4) :
    ∃ x0 x1 x2 x3, l = [x0, x1, x2, x3] := by
  match l, h with
  | [x0, x1, x2, x3], _ => exact ⟨x0, x1, x2, x3, rfl⟩

theorem exists_list8 (l : List Char) (h : l.length = 8) :
    ∃ x0 x1 x2 x3 x4 x5 x6 x7, l = [x0, x1, x2, x3, x4, x5, x6, x7] := by
  match l, h with
  | [x0, x1, x2, x3, x4, x5, x6, x7], _ => exact ⟨x0, x1, x2, x3, x4, x5, x6, x7, rfl⟩

theorem exists_list12 (l : List Char) (h : l.length = 12) :
    ∃ x0 x1 x2 x3 x4 x5 x6 x7 x8 x9 x10 x11,
      l = [x0, x1, x2, x3, x4, x5, x6, x7, x8, x9, x10, x11] := by
  match l, h with
  | [x0, x1, x2, x3, x4, x5, x6, x7, x8, x9, x10, x11], _ =>
    exact ⟨x0, x1, x2, x3, x4, x5, x6, x7, x8, x9, x10, x11, rfl⟩

/-- Shape of a dash-punctuated 8-4-4-4-12 rendering: 36 characters, dashes
exactly at offsets 8, 13, 18, 23, hex digits everywhere else. -/
theorem uuid_shape (A B C D E : List Char)
    (hA : A.length = 8) (hB : B.length = 4) (hC : C.length = 4) (hD : D.length = 4)
    (hE : E.length = 12)
    (hhex : ∀ c, (c ∈ A ∨ c ∈ B ∨ c ∈ C ∨ c ∈ D ∨ c ∈ E) → isHexDigitChar c = true) :
    (A ++ ['-'] ++ B ++ ['-'] ++ C ++ ['-'] ++ D ++ ['-'] ++ E).length = 36 ∧
    ((A ++ ['-'] ++ B ++ ['-'] ++ C ++ ['-'] ++ D ++ ['-'] ++ E).getD 8 ' ' = '-' ∧
     (A ++ ['-'] ++ B ++ ['-'] ++ C ++ ['-'] ++ D ++ ['-'] ++ E).getD 13 ' ' = '-' ∧
     (A ++ ['-'] ++ B ++ ['-'] ++ C ++ ['-'] ++ D ++ ['-'] ++ E).getD 18 ' ' = '-' ∧
     (A ++ ['-'] ++ B ++ ['-'] ++ C ++ ['-'] ++ D ++ ['-'] ++ E).getD 23 ' ' = '-') ∧
    (∀ i, i < 36 → ¬(i = 8 ∨ i = 13 ∨ i = 18 ∨ i = 23) →
      isHexDigitChar ((A ++ ['-'] ++ B ++ ['-'] ++ C ++ ['-'] ++ D ++ ['-'] ++ E).getD i ' ')
        = true) := by
  obtain ⟨a0, a1, a2, a3, a4, a5, a6, a7, rfl⟩ := exists_list8 A hA
  obtain ⟨b0, b1, b2, b3, rfl⟩ := exists_list4 B hB
  obtain ⟨c0, c1, c2, c3, rfl⟩ := exists_list4 C hC
  obtain ⟨d0, d1, d2, d3, rfl⟩ := exists_list4 D hD
  obtain ⟨e0, e1, e2, e3, e4, e5, e6, e7, e8, e9, e10, e11, rfl⟩ := exists_list12 E hE
  refine ⟨rfl, ⟨rfl, rfl, rfl, rfl⟩, ?_⟩
  intro i hi hni
  have hA' : ∀ c ∈ [a0, a1, a2, a3, a4, a5, a6, a7], isHexDigitChar c = true :=
    fun c hc => hhex c (Or.inl hc)
  have hB' : ∀ c ∈ [b0, b1, b2, b3], isHexDigitChar c = true :=
    fun c hc => hhex c (Or.inr (Or.inl hc))
  have hC' : ∀ c ∈ [c0, c1, c2, c3], isHexDigitChar c = true :=
    fun c hc => hhex c (Or.inr (Or.inr (Or.inl hc)))
  have hD' : ∀ c ∈ [d0, d1, d2, d3], isHexDigitChar c = true :=
    fun c hc => hhex c (Or.inr (Or.inr (Or.inr (Or.inl hc))))
  have hE' : ∀ c ∈ [e0, e1, e2, e3, e4, e5, e6, e7, e8, e9, e10, e11], isHexDigitChar c = true :=
    fun c hc => hhex c (Or.inr (Or.inr (Or.inr (Or.inr hc))))
  have ha0 := hA' a0 (by simp); have ha1 := hA' a1 (by simp)
  have ha2 := hA' a2 (by simp); have ha3 := hA' a3 (by simp)
  have ha4 := hA' a4 (by simp); have ha5 := hA' a5 (by simp)
  have ha6 := hA' a6 (by simp); have ha7 := hA' a7 (by simp)
  have hb0 := hB' b0 (by simp); have hb1 := hB' b1 (by simp)
  have hb2 := hB' b2 (by simp); have hb3 := hB' b3 (by simp)
  have hc0 := hC' c0 (by simp); have hc1 := hC' c1 (by simp)
  have hc2 := hC' c2 (by simp); have hc3 := hC' c3 (by simp)
  have hd0 := hD' d0 (by simp); have hd1 := hD' d1 (by simp)
  have hd2 := hD' d2 (by simp); have hd3 := hD' d3 (by simp)
  have he0 := hE' e0 (by simp); have he1 := hE' e1 (by simp)
  have he2 := hE' e2 (by simp); have he3 := hE' e3 (by simp)
  have he4 := hE' e4 (by simp); have he5 := hE' e5 (by simp)
  have he6 := hE' e6 (by simp); have he7 := hE' e7 (by simp)
  have he8 := hE' e8 (by simp); have he9 := hE' e9 (by simp)
  have he10 := hE' e10 (by simp); have he11 := hE' e11 (by simp)
  clear hA' hB' hC' hD' hE' hhex
  interval_cases i <;> simp_all

/-- C7: for 64-bit inputs, `parse_genid` returns the empty string exactly
when both inputs are zero; for every other pair it returns a 36-character
string with dashes at 0-based offsets 8, 13, 18 and 23 and lowercase
hexadecimal digits everywhere else. -/
theorem c7_parse_genid_shape (genid genidx : Int)
    (hb1 : -(2 ^ 63) ≤ genid) (hb2 : genid < 2 ^ 63)
    (hb3 : -(2 ^ 63) ≤ genidx) (hb4 : genidx < 2 ^ 63) :
    (parse_genid genid genidx = "" ↔ (genid = 0 ∧ genidx = 0)) ∧
    (¬(genid = 0 ∧ genidx = 0) →
      (parse_genid_chars genid genidx).length = 36 ∧
      ((parse_genid_chars genid genidx).getD 8 ' ' = '-' ∧
       (parse_genid_chars genid genidx).getD 13 ' ' = '-' ∧
       (parse_genid_chars genid genidx).getD 18 ' ' = '-' ∧
       (parse_genid_chars genid genidx).getD 23 ' ' = '-') ∧
      (∀ i, i < 36 → ¬(i = 8 ∨ i = 13 ∨ i = 18 ∨ i = 23) →
        isHexDigitChar ((parse_genid_chars genid genidx).getD i ' ') = true)) := by
  by_cases hz : genid = 0 ∧ genidx = 0
  · refine ⟨⟨fun _ => hz, fun _ => ?_⟩, fun hn => absurd hz hn⟩
    unfold parse_genid parse_genid_chars
    rw [if_pos hz]
  · set s : List Char :=
      toHex16 ((genidx % (2 ^ 64 : Int)).toNat) ++ toHex16 ((genid % (2 ^ 64 : Int)).toNat)
      with hsdef
    have hchars : parse_genid_chars genid genidx =
        (s.take 8) ++ ['-'] ++ ((s.drop 8).take 4) ++ ['-'] ++ ((s.drop 12).take 4)
          ++ ['-'] ++ ((s.drop 16).take 4) ++ ['-'] ++ ((s.drop 20).take 12) := by
      unfold parse_genid_chars
      rw [if_neg hz]
    have hs : s.length = 32 := by
      simp [hsdef, toHex16]
    have hmem : ∀ c, c ∈ s → isHexDigitChar c = true := by
      intro c hc
      rw [hsdef] at hc
      rcases List.mem_append.1 hc with h | h
      · exact toHex16_hex _ c h
      · exact toHex16_hex _ c h
    obtain ⟨hlen, hdash, hhexpos⟩ :=
      uuid_shape (s.take 8) ((s.drop 8).take 4) ((s.drop 12).take 4)
        ((s.drop 16).take 4) ((s.drop 20).take 12)
        (by rw [List.length_take, hs]; omega)
        (by rw [List.length_take, List.length_drop, hs]; omega)
        (by rw [List.length_take, List.length_drop, hs]; omega)
        (by rw [List.length_take, List.length_drop, hs]; omega)
        (by rw [List.length_take, List.length_drop, hs]; omega)
        (by
          intro c hc
          refine hmem c ?_
          rcases hc with h | h | h | h | h
          · exact List.take_subset _ _ h
          · exact List.drop_subset _ _ (List.take_subset _ _ h)
          · exact List.drop_subset _ _ (List.take_subset _ _ h)
          · exact List.drop_subset _ _ (List.take_subset _ _ h)
          · exact List.drop_subset _ _ (List.take_subset _ _ h))
    have hne : parse_genid genid genidx ≠ "" := by
      intro he
      have hd : parse_genid_chars genid genidx = [] := congrArg String.data he
      rw [hchars] at hd
      rw [hd] at hlen
      simp at hlen
    refine ⟨⟨fun he => absurd he hne, fun hzz => absurd hzz hz⟩, fun _ => ?_⟩
    rw [hchars]
    exact ⟨hlen, hdash, hhexpos⟩

/-- C7 witness: the claim's shape at the concrete 64-bit pair (1, 0). -/
theorem c7_parse_genid_witness :
    (parse_genid 1 0 = "" ↔ ((1 : Int) = 0 ∧ (0 : Int) = 0)) ∧
    (¬((1 : Int) = 0 ∧ (0 : Int) = 0) →
      (parse_genid_chars 1 0).length = 36 ∧
      ((parse_genid_chars 1 0).getD 8 ' ' = '-' ∧
       (parse_genid_chars 1 0).getD 13 ' ' = '-' ∧
       (parse_genid_chars 1 0).getD 18 ' ' = '-' ∧
       (parse_genid_chars 1 0).getD 23 ' ' = '-') ∧
      (∀ i, i < 36 → ¬(i = 8 ∨ i = 13 ∨ i = 18 ∨ i = 23) →
        isHexDigitChar ((parse_genid_chars 1 0).getD i ' ') = true)) :=
  c7_parse_genid_shape 1 0 (by decide) (by decide) (by decide) (by decide)

/-! ## C3 — ethernet target-network resolution (`find_eths`, vmx2xml.py
lines 301-340, and the network-map construction of `get_options`,
lines 900-911)

The user network maps `networks["name"]` and `networks["type"]` are plain
Python dicts (built empty in `get_options`); `find_eths` subscripts them with
`networks[...][\"*\"]` inside an `elif` condition, and a plain-dict subscript
of a missing key raises `KeyError`. We model a plain dict as an association
list and its subscript as `Except`, the error value carrying the missing
key. -/

/-- Python plain-dict subscript: `KeyError` (as `Except.error`) on a missing
key. -/
def dictGet (m : List (String × String)) (k : String) : Except String String :=
  match dictLookup m k with
  | some v => Except.ok v
  | none => Except.error k

/-- `parse_eth_type` (vmx2xml.py lines 267-277). -/
def parse_eth_type (eth_type : String) : String :=
  translate [("", ""),
             ("bridged", "bridged"),
             ("vmnet0", "bridged"),
             ("hostonly", "hostonly"),
             ("vmnet1", "hostonly"),
             ("nat", "nat"),
             ("vmnet8", "nat")] eth_type

/-- `translate_eth_type` (vmx2xml.py lines 281-288): the built-in fallback
from normalized connection type to a virt-install network argument. -/
def translate_eth_type (eth_type sandbox : String) : String :=
  translate [("", ""),
             ("bridged", "bridge"),
             ("hostonly", "network=" ++ sandbox),
             ("nat", "network=default")] eth_type

/-- The target-network resolution for one present ethernet adapter
(`find_eths`, vmx2xml.py lines 309-327): try the name-based user map (with
`"*"` wildcard via plain-dict subscript), then the type-based user map (same
shape), then the built-in type fallback, then the hard-coded `"bridge"`.
`eth_name` is `<ethX>.networkname`, `eth_type` is the already-normalized
`parse_eth_type` of `<ethX>.connectiontype`. -/
def resolve_eth_network (nameMap typeMap : List (String × String))
    (eth_name eth_type sandbox : String) : Except String String := do
  let onet1 : String ←
    if eth_name ≠ "" ∧ nameMap ≠ [] then
      match dictLookup nameMap eth_name with
      | some v => Except.ok v
      | none => dictGet nameMap "*"
    else Except.ok ""
  let onet2 : String ←
    if onet1 = "" ∧ typeMap ≠ [] then
      match dictLookup typeMap eth_type with
      | some v => Except.ok v
      | none => dictGet typeMap "*"
    else Except.ok onet1
  let onet3 : String :=
    if onet2 = "" ∧ eth_type ≠ "" then translate_eth_type eth_type sandbox else onet2
  Except.ok (if onet3 = "" then "bridge" else onet3)

/-- C3: the claim (and the program's own `--help-networks` text) says a
name-based map with no entry for the adapter's network name falls through to
the type-based step and resolution never fails; the code instead evaluates
`networks["name"]["*"]` on a plain dict and raises an uncaught `KeyError`
when no `"*"` entry exists. Concretely: user map `name:othernet=bridge=br0`,
adapter with `networkname "corpnet"` and `connectiontype "bridged"`. -/
theorem c3_name_map_keyerror :
    resolve_eth_network [("othernet", "bridge=br0")] [] "corpnet" "bridged" "isolated"
      = Except.error "*" := by
  rfl

/-! ## C8 — controllers and disk target buses in the assembled argument list
(`virt_install`, vmx2xml.py lines 498-518 and 540-551) -/

/-- A disk controller record as built by `find_disk_controllers`
(vmx2xml.py lines 197-206): `{"x": x, "model": model}`. -/
structure DiskCtrl where
  x : Nat
  model : String
deriving DecidableEq

/-- A disk record as built by `find_disks` (vmx2xml.py lines 219-236):
`path` is the resolved (source, target) pair, `osName`/`osInfo` the
inspection result. -/
structure Disk where
  bus : String
  x : Nat
  y : Nat
  device : String
  driver : String
  cache : String
  pathSrc : String
  pathTgt : String
  osName : String
  osInfo : String
deriving DecidableEq

/-- The controller `--controller` specifications `virt_install` emits
(vmx2xml.py lines 498-518), as (interface, record) pairs before rendering:
emitted only in fidelity mode, skipping the `ide` interface (libvirt inserts
the one IDE controller itself) and the `nvme` interface (unsupported
downstream). `disk_ctrls` is the bus-name-keyed controller table of `main`
in its iteration order. -/
def controller_specs (fidelity : Bool) (disk_ctrls : List (String × List DiskCtrl)) :
    List (String × DiskCtrl) :=
  if fidelity then
    disk_ctrls.flatMap (fun p =>
      if p.1 = "ide" ∨ p.1 = "nvme" then []
      else p.2.map (fun c => (p.1, c)))
  else []

/-- The rendering of one controller specification into the `--controller`
argument string (vmx2xml.py lines 514-518). -/
def controller_arg (spec : String × DiskCtrl) : String :=
  "type=" ++ spec.1 ++ ",index=" ++ toString spec.2.x
    ++ (if spec.2.model ≠ "" then ",model=" ++ spec.2.model else "")

/-- The target bus of one emitted disk (vmx2xml.py lines 544-547): in
fidelity mode, or for a cdrom device, the original bus except that `nvme`
becomes `virtio`; otherwise always `virtio`. -/
def disk_target (fidelity : Bool) (device bus : String) : String :=
  if fidelity ∨ device = "cdrom" then (if bus = "nvme" then "virtio" else bus)
  else "virtio"

/-- The rendering of one emitted disk into the `--disk` argument string
(vmx2xml.py lines 548-551); `convert_path` returns the target path in every
mode, so `path` is the disk's target path. -/
def disk_arg (vinst_ge3 : Bool) (fidelity : Bool) (d : Disk) : String :=
  "device=" ++ d.device ++ ",path=" ++ d.pathTgt
    ++ ",target.bus=" ++ disk_target fidelity d.device d.bus
    ++ ",driver.cache=" ++ d.cache
    ++ (if vinst_ge3 then ",type=" ++ d.driver else "")

/-- C8: no controller specification with interface `nvme` is ever emitted,
in fidelity or default mode, and every emitted disk whose source bus is
`nvme` is assigned target bus `virtio`, regardless of mode and device
type. -/
theorem c8_no_nvme_controllers (fidelity : Bool)
    (disk_ctrls : List (String × List DiskCtrl)) (d : Disk) (h : d.bus = "nvme") :
    (∀ spec ∈ controller_specs fidelity disk_ctrls, spec.1 ≠ "nvme") ∧
    disk_target fidelity d.device d.bus = "virtio" := by
  constructor
  · intro spec hspec
    unfold controller_specs at hspec
    by_cases hf : fidelity
    · rw [if_pos hf] at hspec
      obtain ⟨p, _, hp⟩ := List.mem_flatMap.1 hspec
      by_cases hskip : p.1 = "ide" ∨ p.1 = "nvme"
      · rw [if_pos hskip] at hp
        exact absurd hp (List.not_mem_nil spec)
      · rw [if_neg hskip] at hp
        obtain ⟨c, _, hc⟩ := List.mem_map.1 hp
        intro hnv
        apply hskip
        right
        rw [← hc] at hnv
        exact hnv
    · rw [if_neg hf] at hspec
      exact absurd hspec (List.not_mem_nil spec)
  · unfold disk_target
    rw [h]
    by_cases hf : fidelity ∨ d.device = "cdrom"
    · rw [if_pos hf, if_pos rfl]
    · rw [if_neg hf]

/-- C8 witness: a concrete fidelity-mode controller table containing an nvme
controller, and a concrete nvme disk. -/
theorem c8_no_nvme_witness :
    (∀ spec ∈ controller_specs true
        [("scsi", [⟨0, "lsilogic"⟩]), ("nvme", [⟨0, ""⟩]), ("ide", [])],
      spec.1 ≠ "nvme") ∧
    disk_target true "disk" ("nvme" : String) = "virtio" := by
  have h := c8_no_nvme_controllers true
    [("scsi", [⟨0, "lsilogic"⟩]), ("nvme", [⟨0, ""⟩]), ("ide", [])]
    { bus := "nvme", x := 0, y := 0, device := "disk", driver := "file",
      cache := "none", pathSrc := "a.vmdk", pathTgt := "a.qcow2",
      osName := "", osInfo := "" } rfl
  exact h

/-! ## C9 — file reference resolution (`parse_filename_ref`,
vmx2xml.py lines 61-111, `find_file_ref` lines 146-159, `walk_find`
lines 137-142)

The host filesystem is abstracted: `pathExists` models `os.path.exists` and
`walkFind` models `walk_find` (the full path of the first file named `name`
found under a directory by `os.walk`, or `""`). `sys.exit(1)` is
`Except.error 1`. -/

structure FileSys where
  pathExists : String → Bool
  walkFind : String → String → String
  inspect : String → String × String

/-- `os.path.basename` (POSIX): everything after the last `/`. -/
def pyBasename (s : String) : String :=
  String.mk ((s.data.reverse.takeWhile (fun c => c ≠ '/')).reverse)

/-- `os.path.dirname` (POSIX): the head of `os.path.split`, with trailing
slashes removed unless it consists only of slashes. -/
def pyDirname (s : String) : String :=
  let headRev := s.data.reverse.dropWhile (fun c => c ≠ '/')
  let strippedRev := headRev.dropWhile (fun c => c = '/')
  if strippedRev.isEmpty then String.mk headRev.reverse else String.mk strippedRev.reverse

/-- `os.path.isabs` (POSIX). -/
def pyIsAbs (s : String) : Bool :=
  s.startsWith "/"

/-- `os.path.join` (POSIX) for two components. -/
def pyJoin (a b : String) : String :=
  if pyIsAbs b then b
  else if a = "" then b
  else if a.endsWith "/" then a ++ b
  else a ++ "/" ++ b

/-- Simplified model of `os.path.relpath`: when `start` is a leading
directory of `p` the remainder is returned; cases needing `..` segments do
not arise in the claims under verification and return `p` unchanged. -/
def pyRelpath (p start : String) : String :=
  let pre := if start.endsWith "/" then start else start ++ "/"
  if pre.isPrefixOf p then String.mk (p.data.drop pre.length) else p

/-- `img_file_ext` (vmx2xml/img/img.py lines 44-45). -/
def img_file_ext (raw : Bool) : String :=
  if raw then "raw" else "qcow2"

/-- The datastore mapping table built by `get_options` (vmx2xml.py
lines 885-898): the two sentinel entries `.` and `..` (each a
(source directory, target directory) pair) and the user-supplied entries in
insertion order, each (reference prefix, source directory, target
directory). -/
structure Datastores where
  dot : String × String
  dotdot : String × String
  table : List (String × String × String)

/-- The datastore loop of `parse_filename_ref` (vmx2xml.py lines 82-94):
the first non-sentinel entry whose reference prefix-matches the dirname is
substituted (`re.subn("^ref", sourcedir, dirname, count=1)` with the
reference taken literally, as the datastore paths intend) and the loop
breaks on that entry whether or not the file is then found. -/
def findDatastoreMatch : List (String × String × String) → String →
    Option (String × (String × String))
  | [], _ => none
  | (ref, sp, tp) :: rest, dirname =>
    if ref.isPrefixOf dirname then
      some (sp ++ String.mk (dirname.data.drop ref.length), (sp, tp))
    else findDatastoreMatch rest dirname

/-- Python truthiness of the `paths` pair: `all(paths)` is true only when
both entries are present and non-empty strings. -/
def pathsOk : Option String × Option String → Bool
  | (some a, some b) => !(a == "") && !(b == "")
  | _ => false

/-- `find_file_ref` (vmx2xml.py lines 146-159): look for `name` directly
under `srcdir`, else (when `recurse`) by recursive walk; on success the
target path is the source file relocated from the datastore's source
directory to its target directory. -/
def find_file_ref (fs : FileSys) (name srcdir : String) (datastore : String × String)
    (recurse : Bool) : Option String × Option String :=
  let pathname := pyJoin srcdir name
  let sourcefile : String :=
    if fs.pathExists pathname then pathname
    else if recurse then fs.walkFind srcdir name
    else ""
  if sourcefile = "" then (none, none)
  else (some sourcefile, some (pyJoin datastore.2 (pyRelpath sourcefile datastore.1)))

/-- The `.vmdk` extension rewrite on the target path (vmx2xml.py
lines 104-108): `re.subn(r"\.vmdk$", ..., flags=re.IGNORECASE)`. -/
def translateVmdkExt (paths : Option String × Option String) (raw : Bool) :
    Option String × Option String :=
  match paths with
  | (a, some t) =>
    (a, some (if (pyLower t).endsWith ".vmdk"
              then String.mk (t.data.take (t.length - 5)) ++ "." ++ img_file_ext raw
              else t))
  | p => p

/-- `parse_filename_ref` (vmx2xml.py lines 61-111): empty reference and
local-device reference resolve to (None, None); otherwise the basename is
searched in the `.` sentinel (relative references only), then in the first
prefix-matching table datastore (with recursive walk), then in the `..`
sentinel; if still unresolved the process exits with status 1. On success
the target extension is rewritten when `translate_disk` is set. -/
def parse_filename_ref (fs : FileSys) (s : String) (datastores : Datastores)
    (translate_disk raw : Bool) : Except Nat (Option String × Option String) :=
  if s = "" then Except.ok (none, none)
  else if s.startsWith "/vmfs/devices" then Except.ok (none, none)
  else
    let basename := pyBasename s
    let paths1 : Option String × Option String :=
      if !(pyIsAbs s) then find_file_ref fs basename datastores.dot.1 datastores.dot false
      else (none, none)
    let paths2 : Option String × Option String :=
      if pathsOk paths1 then paths1
      else
        match findDatastoreMatch datastores.table (pyDirname s) with
        | some (m, ds) => find_file_ref fs basename m ds true
        | none => (none, none)
    let paths3 : Option String × Option String :=
      if pathsOk paths2 then paths2
      else find_file_ref fs basename datastores.dotdot.1 datastores.dotdot false
    if pathsOk paths3 then
      Except.ok (if translate_disk then translateVmdkExt paths3 raw else paths3)
    else Except.error 1

theorem find_file_ref_all_fail (fs : FileSys) (name srcdir : String)
    (datastore : String × String) (recurse : Bool)
    (hex : ∀ dir, fs.pathExists (pyJoin dir name) = false)
    (hwalk : ∀ dir, fs.walkFind dir name = "") :
    find_file_ref fs name srcdir datastore recurse = (none, none) := by
  cases recurse <;> simp [find_file_ref, hex, hwalk]

theorem append_dot_ext_ne_empty (x : String) (raw : Bool) :
    x ++ "." ++ img_file_ext raw ≠ "" := by
  intro hc
  have h := congrArg String.length hc
  rw [String.length_append, String.length_append] at h
  have hdot : ("." : String).length = 1 := rfl
  have hempty : ("" : String).length = 0 := rfl
  cases raw
  · have hq : (img_file_ext false).length = 5 := rfl
    rw [hdot, hq, hempty] at h
    omega
  · have hr : (img_file_ext true).length = 3 := rfl
    rw [hdot, hr, hempty] at h
    omega

theorem pathsOk_translateVmdkExt (P : Option String × Option String) (raw : Bool)
    (h : pathsOk P = true) : pathsOk (translateVmdkExt P raw) = true := by
  rcases P with ⟨pa, pb⟩
  cases pa with
  | none => simp [pathsOk] at h
  | some a =>
    cases pb with
    | none => simp [pathsOk] at h
    | some b =>
      simp only [pathsOk, Bool.and_eq_true, Bool.not_eq_true', beq_eq_false_iff_ne] at h
      unfold translateVmdkExt
      by_cases hvm : (pyLower b).endsWith ".vmdk" = true
      · simp only [hvm, if_true]
        simp only [pathsOk, Bool.and_eq_true, Bool.not_eq_true', beq_eq_false_iff_ne]
        exact ⟨h.1, append_dot_ext_ne_empty _ raw⟩
      · simp only [hvm, Bool.false_eq_true, if_false]
        simp only [pathsOk, Bool.and_eq_true, Bool.not_eq_true', beq_eq_false_iff_ne]
        exact h

/-- The final step of `parse_filename_ref` (lines 100-111): whatever the
accumulated candidate pair is, the result is fatal or fully resolved. -/
theorem parse_ref_tail (t2 r2 : Bool) (P3 p : Option String × Option String)
    (hp : (if pathsOk P3 = true
           then Except.ok (if t2 then translateVmdkExt P3 r2 else P3)
           else (Except.error 1 : Except Nat (Option String × Option String)))
          = Except.ok p) :
    pathsOk p = true ∨ p = (none, none) := by
  by_cases hok : pathsOk P3 = true
  · rw [if_pos hok] at hp
    left
    have hpe : p = (if t2 then translateVmdkExt P3 r2 else P3) := (Except.ok.inj hp).symm
    rw [hpe]
    cases t2 with
    | false => simpa using hok
    | true =>
      simp only [if_true]
      exact pathsOk_translateVmdkExt P3 r2 hok
  · rw [if_neg hok] at hp
    exact absurd hp (by simp)

/-- C9: for every non-empty reference that does not name a local device, if
the referenced basename exists in no candidate directory and no recursive
walk finds it, `parse_filename_ref` exits with status 1; and no invocation
ever returns a partially resolved pair — every `ok` result is either fully
resolved (both paths present and non-empty) or the valid (None, None)
"not present" result. -/
theorem c9_unresolved_is_fatal (fs : FileSys) (s : String) (datastores : Datastores)
    (translate_disk raw : Bool)
    (hne : s ≠ "") (hdev : s.startsWith "/vmfs/devices" = false)
    (hex : ∀ dir, fs.pathExists (pyJoin dir (pyBasename s)) = false)
    (hwalk : ∀ dir, fs.walkFind dir (pyBasename s) = "") :
    parse_filename_ref fs s datastores translate_disk raw = Except.error 1 ∧
    (∀ (fs2 : FileSys) (s2 : String) (d2 : Datastores) (t2 r2 : Bool)
        (p : Option String × Option String),
      parse_filename_ref fs2 s2 d2 t2 r2 = Except.ok p →
      pathsOk p = true ∨ p = (none, none)) := by
  constructor
  · have hfff : ∀ (srcdir : String) (datastore : String × String) (r : Bool),
        find_file_ref fs (pyBasename s) srcdir datastore r = (none, none) :=
      fun a b c => find_file_ref_all_fail fs _ a b c hex hwalk
    cases hm : findDatastoreMatch datastores.table (pyDirname s) with
    | none => simp [parse_filename_ref, hne, hdev, hfff, hm, pathsOk]
    | some md =>
      obtain ⟨m, ds⟩ := md
      simp [parse_filename_ref, hne, hdev, hfff, hm, pathsOk]
  · intro fs2 s2 d2 t2 r2 p hp
    simp only [parse_filename_ref] at hp
    by_cases h0 : s2 = ""
    · rw [if_pos h0] at hp
      right
      exact (Except.ok.inj hp).symm
    · rw [if_neg h0] at hp
      by_cases hd : s2.startsWith "/vmfs/devices" = true
      · rw [if_pos hd] at hp
        right
        exact (Except.ok.inj hp).symm
      · rw [if_neg hd] at hp
        exact parse_ref_tail t2 r2 _ p hp

/-- C9 witness: a filesystem in which nothing exists and no walk finds
anything, and the reference `"myvm.vmdk"`: resolution exits with status 1. -/
theorem c9_unresolved_witness :
    parse_filename_ref
      ⟨fun _ => false, fun _ _ => "", fun _ => ("", "")⟩
      "myvm.vmdk"
      ⟨("/vm", "/out"), ("/", "/o2"), [("/vmfs/volumes/ds1", "/share/ds1", "/out/ds1")]⟩
      true false = Except.error 1 ∧
    (∀ (fs2 : FileSys) (s2 : String) (d2 : Datastores) (t2 r2 : Bool)
        (p : Option String × Option String),
      parse_filename_ref fs2 s2 d2 t2 r2 = Except.ok p →
      pathsOk p = true ∨ p = (none, none)) :=
  c9_unresolved_is_fatal
    ⟨fun _ => false, fun _ _ => "", fun _ => ("", "")⟩
    "myvm.vmdk"
    ⟨("/vm", "/out"), ("/", "/o2"), [("/vmfs/volumes/ds1", "/share/ds1", "/out/ds1")]⟩
    true false (by decide) (by decide) (fun _ => rfl) (fun _ => rfl)

/-! ## C10 — disk enumeration and controller presence
(`find_disk_controllers`, vmx2xml.py lines 197-206, and `find_disks`,
lines 209-237) -/

/-- `find_disk_controllers` (vmx2xml.py lines 197-206): controller index
0..3 is present when `<interface><x>.present` parses as true; only SCSI
consults `<interface><x>.virtualdev` for a model. -/
def find_disk_controllers (d : VmxDict) (interface : String) : List DiskCtrl :=
  (List.range 4).filterMap (fun x =>
    if parse_boolean (d (interface ++ toString x ++ ".present")) then
      some ⟨x, if interface = "scsi"
               then translate_scsi_controller_model (d (interface ++ toString x ++ ".virtualdev"))
               else ""⟩
    else none)

/-- `x in controllers` on the controller table. -/
def ctrlHasIndex (cs : List DiskCtrl) (x : Nat) : Bool :=
  cs.any (fun c => c.x == x)

/-- Python `"cdrom" in t`: substring containment. -/
def hasSubstr (s pat : String) : Bool :=
  (List.range (s.length + 1)).any (fun i => pat.data.isPrefixOf (s.data.drop i))

/-- One `(x, y)` slot of the `find_disks` double loop (vmx2xml.py
lines 215-236): skip when `<interface><x>:<y>.present` is not true;
otherwise build the disk record — the device is `cdrom` when the devicetype
contains that substring, the filename reference is resolved through
`parse_filename_ref` (which may exit), cache is writethrough only on the
write-through flag, and the OS probe runs only in convert mode on a `.vmdk`
source. -/
def find_disks_cell (fs : FileSys) (d : VmxDict) (datastores : Datastores)
    (interface : String) (disk_mode : String) (raw : Bool) (x y : Nat) :
    Except Nat (Option Disk) :=
  if parse_boolean (d (interface ++ toString x ++ ":" ++ toString y ++ ".present")) then
    match parse_filename_ref fs (d (interface ++ toString x ++ ":" ++ toString y ++ ".filename"))
        datastores (disk_mode != "none") raw with
    | Except.error e => Except.error e
    | Except.ok path =>
      let t := pyLower (d (interface ++ toString x ++ ":" ++ toString y ++ ".devicetype"))
      let srcpath := (path.1).getD ""
      let os : String × String :=
        if pathsOk path = true ∧ disk_mode = "convert" ∧ srcpath.endsWith ".vmdk"
        then fs.inspect srcpath else ("", "")
      Except.ok (some
        { bus := interface, x := x, y := y,
          device := if hasSubstr t "cdrom" then "cdrom" else "disk",
          driver := "file",
          cache := if parse_boolean
              (d (interface ++ toString x ++ ":" ++ toString y ++ ".writethrough"))
            then "writethrough" else "none",
          pathSrc := srcpath, pathTgt := (path.2).getD "",
          osName := os.1, osInfo := os.2 })
  else Except.ok none

/-- The `y` loop of `find_disks` for one controller index `x` (vmx2xml.py
lines 214-236), threading the controller table because the IDE branch
(lines 217-218) inserts the implicit IDE controller when a disk is found. -/
def find_disks_row (fs : FileSys) (d : VmxDict) (datastores : Datastores)
    (interface : String) (disk_mode : String) (raw : Bool) (x : Nat) :
    List Nat → List DiskCtrl → Except Nat (List Disk × List DiskCtrl)
  | [], ctrls => Except.ok ([], ctrls)
  | y :: ys, ctrls =>
    match find_disks_cell fs d datastores interface disk_mode raw x y with
    | Except.error e => Except.error e
    | Except.ok none => find_disks_row fs d datastores interface disk_mode raw x ys ctrls
    | Except.ok (some disk) =>
      match find_disks_row fs d datastores interface disk_mode raw x ys
          (if interface = "ide" then
            (if ctrlHasIndex ctrls x then ctrls else ctrls ++ [⟨x, ""⟩])
          else ctrls) with
      | Except.error e => Except.error e
      | Except.ok res => Except.ok (disk :: res.1, res.2)

/-- The `x` loop of `find_disks` (vmx2xml.py lines 211-237): a controller
index with no controller record is skipped unless the interface is `ide`. -/
def find_disks_go (fs : FileSys) (d : VmxDict) (datastores : Datastores)
    (interface : String) (disk_mode : String) (raw : Bool) :
    List Nat → List DiskCtrl → Except Nat (List Disk × List DiskCtrl)
  | [], ctrls => Except.ok ([], ctrls)
  | x :: xs, ctrls =>
    if ¬ ctrlHasIndex ctrls x = true ∧ interface ≠ "ide" then
      find_disks_go fs d datastores interface disk_mode raw xs ctrls
    else
      match find_disks_row fs d datastores interface disk_mode raw x (List.range 30) ctrls with
      | Except.error e => Except.error e
      | Except.ok row =>
        match find_disks_go fs d datastores interface disk_mode raw xs row.2 with
        | Except.error e => Except.error e
        | Except.ok rest => Except.ok (row.1 ++ rest.1, rest.2)

/-- `find_disks` (vmx2xml.py lines 209-237), returning the enumerated disks
and the (possibly IDE-extended) controller table. -/
def find_disks (fs : FileSys) (d : VmxDict) (datastores : Datastores)
    (interface : String) (controllers : List DiskCtrl) (disk_mode : String) (raw : Bool) :
    Except Nat (List Disk × List DiskCtrl) :=
  find_disks_go fs d datastores interface disk_mode raw (List.range 4) controllers

theorem find_disks_row_spec (fs : FileSys) (d : VmxDict) (datastores : Datastores)
    (interface : String) (disk_mode : String) (raw : Bool) (x : Nat)
    (hide : interface ≠ "ide") :
    ∀ (ys : List Nat) (ctrls : List DiskCtrl) (disks : List Disk) (ctrls2 : List DiskCtrl),
      find_disks_row fs d datastores interface disk_mode raw x ys ctrls
        = Except.ok (disks, ctrls2) →
      ctrls2 = ctrls ∧ ∀ disk ∈ disks, disk.x = x := by
  intro ys
  induction ys with
  | nil =>
    intro ctrls disks ctrls2 h
    unfold find_disks_row at h
    have h2 := Except.ok.inj h
    rw [Prod.mk.injEq] at h2
    obtain ⟨rfl, rfl⟩ := h2
    exact ⟨rfl, fun disk hd => absurd hd (List.not_mem_nil disk)⟩
  | cons y ys ih =>
    intro ctrls disks ctrls2 h
    unfold find_disks_row at h
    cases hcell : find_disks_cell fs d datastores interface disk_mode raw x y with
    | error e =>
      rw [hcell] at h
      simp at h
    | ok od =>
      rw [hcell] at h
      cases od with
      | none =>
        simp only [] at h
        exact ih ctrls disks ctrls2 h
      | some disk =>
        simp only [] at h
        rw [if_neg hide] at h
        cases hrec : find_disks_row fs d datastores interface disk_mode raw x ys ctrls with
        | error e =>
          rw [hrec] at h
          simp at h
        | ok res =>
          rw [hrec] at h
          simp only [Except.ok.injEq, Prod.mk.injEq] at h
          obtain ⟨rfl, rfl⟩ := h
          obtain ⟨hc, hall⟩ := ih ctrls res.1 res.2 (by rw [hrec])
          refine ⟨hc, fun dk hdk => ?_⟩
          rcases List.mem_cons.1 hdk with rfl | hmem
          · unfold find_disks_cell at hcell
            split at hcell
            · split at hcell
              · exact absurd hcell (by simp)
              · have h3 := Option.some.inj (Except.ok.inj hcell)
                rw [← h3]
            · exact absurd (Except.ok.inj hcell) (by simp)
          · exact hall dk hmem

theorem find_disks_go_spec (fs : FileSys) (d : VmxDict) (datastores : Datastores)
    (interface : String) (disk_mode : String) (raw : Bool)
    (hide : interface ≠ "ide") :
    ∀ (xs : List Nat) (ctrls : List DiskCtrl) (res : List Disk × List DiskCtrl),
      find_disks_go fs d datastores interface disk_mode raw xs ctrls = Except.ok res →
      (∀ disk ∈ res.1, ctrlHasIndex ctrls disk.x = true) ∧ res.2 = ctrls := by
  intro xs
  induction xs with
  | nil =>
    intro ctrls res h
    unfold find_disks_go at h
    have h2 := Except.ok.inj h
    rw [← h2]
    exact ⟨fun disk hd => absurd hd (List.not_mem_nil disk), rfl⟩
  | cons x xs ih =>
    intro ctrls res h
    unfold find_disks_go at h
    by_cases hskip : ¬ ctrlHasIndex ctrls x = true ∧ interface ≠ "ide"
    · rw [if_pos hskip] at h
      exact ih ctrls res h
    · rw [if_neg hskip] at h
      have hx : ctrlHasIndex ctrls x = true := by
        by_cases hcx : ctrlHasIndex ctrls x = true
        · exact hcx
        · exact absurd ⟨hcx, hide⟩ hskip
      cases hrow : find_disks_row fs d datastores interface disk_mode raw x
          (List.range 30) ctrls with
      | error e =>
        rw [hrow] at h
        simp at h
      | ok row =>
        rw [hrow] at h
        simp only [] at h
        obtain ⟨hrc, hrowx⟩ :=
          find_disks_row_spec fs d datastores interface disk_mode raw x hide
            (List.range 30) ctrls row.1 row.2 (by rw [hrow])
        cases hrest : find_disks_go fs d datastores interface disk_mode raw xs row.2 with
        | error e =>
          rw [hrest] at h
          simp at h
        | ok rest =>
          rw [hrest] at h
          simp only [Except.ok.injEq] at h
          obtain ⟨hall, hc⟩ := ih row.2 rest hrest
          rw [← h]
          constructor
          · intro disk hd
            rcases List.mem_append.1 hd with hmem | hmem
            · rw [hrowx disk hmem]
              exact hx
            · rw [← hrc]
              exact hall disk hmem
          · rw [hc, hrc]

/-- C10: for every bus other than IDE, `find_disks` (run, as `main` runs it,
on the controller table `find_disk_controllers` built for that bus) produces
a disk record at controller index x only when the controller presence key
`<bus><x>.present` itself parses as true; a disk slot under a non-present
controller yields no record. -/
theorem c10_disks_require_controller (fs : FileSys) (d : VmxDict)
    (datastores : Datastores) (interface : String) (disk_mode : String) (raw : Bool)
    (res : List Disk × List DiskCtrl)
    (hide : interface ≠ "ide")
    (h : find_disks fs d datastores interface (find_disk_controllers d interface)
          disk_mode raw = Except.ok res) :
    ∀ disk ∈ res.1, parse_boolean (d (interface ++ toString disk.x ++ ".present")) = true := by
  intro disk hdisk
  obtain ⟨hall, _⟩ :=
    find_disks_go_spec fs d datastores interface disk_mode raw hide
      (List.range 4) (find_disk_controllers d interface) res h
  have hidx := hall disk hdisk
  unfold ctrlHasIndex at hidx
  rw [List.any_eq_true] at hidx
  obtain ⟨c, hc, hcx⟩ := hidx
  unfold find_disk_controllers at hc
  rw [List.mem_filterMap] at hc
  obtain ⟨x', _, hsome⟩ := hc
  by_cases hp : parse_boolean (d (interface ++ toString x' ++ ".present")) = true
  · rw [if_pos hp] at hsome
    have hcx' : c.x = x' := by
      rw [← Option.some.inj hsome]
    have hcx2 : c.x = disk.x := by simpa using hcx
    have hxx : x' = disk.x := by
      rw [← hcx']
      exact hcx2
    rw [← hxx]
    exact hp
  · rw [if_neg hp] at hsome
    exact absurd hsome (by simp)

/-- C10 witness: with an empty VMX store there are no SCSI controllers and
no disks, and the property holds at the concrete result ([], []). -/
theorem c10_disks_witness :
    (∀ disk ∈ (([], []) : List Disk × List DiskCtrl).1,
      parse_boolean (emptyDict ("scsi" ++ toString disk.x ++ ".present")) = true) ∧
    ("scsi" : String) ≠ "ide" :=
  ⟨c10_disks_require_controller
    ⟨fun _ => false, fun _ _ => "", fun _ => ("", "")⟩ emptyDict
    ⟨("/vm", "/o"), ("/", "/o2"), []⟩ "scsi" "none" false ([], [])
    (by decide) rfl, by decide⟩

end VmxSpec
